import Mathlib

/-!
Verification of the token-cache and protocol-state engine of a browser OAuth2
public-client library (MSAL.js).  The repository snapshot ships the unit tests
of the engine; the engine itself (ProtocolUtils, BrowserCacheManager, the
common CacheManager) is modelled here from the design specification, faithful
to its words, and checked against the behaviours the tests pin down.
-/

namespace Msal

/-! ## Key-value store primitives

All persisted values are strings; a storage medium is modelled as an
association list from string keys to string values, insertion-ordered,
at most one binding per key. -/

/-- A raw string-keyed string-valued storage medium. -/
abbrev Store := List (String × String)

/-- `set(key, value)`: overwrite any previous binding of `key`, append the new one. -/
def setKV {α : Type} (s : List (String × α)) (k : String) (v : α) :
    List (String × α) :=
  (List.filter (fun p => p.1 ≠ k) s) ++ [(k, v)]

/-- `get(key) -> value | null`. -/
def getKV {α : Type} (s : List (String × α)) (k : String) : Option α :=
  (List.find? (fun p => p.1 = k) s).map Prod.snd

/-- `remove(key)`. -/
def removeKV {α : Type} (s : List (String × α)) (k : String) :
    List (String × α) :=
  List.filter (fun p => p.1 ≠ k) s

/-- `containsKey(key) -> bool`. -/
def containsKV {α : Type} (s : List (String × α)) (k : String) : Bool :=
  List.any s (fun p => p.1 = k)

/-- `keys() -> sequence of string`. -/
def keysOf {α : Type} (s : List (String × α)) : List String :=
  List.map Prod.fst s

theorem getKV_append {α : Type} (l1 l2 : List (String × α)) (k : String) :
    getKV (l1 ++ l2) k = (getKV l1 k).or (getKV l2 k) := by
  unfold getKV
  rw [List.find?_append]
  cases List.find? (fun p => p.1 = k) l1 <;> simp

theorem getKV_filter_ne {α : Type} (l : List (String × α)) (k k' : String)
    (h : k ≠ k') :
    getKV (List.filter (fun p => p.1 ≠ k') l) k = getKV l k := by
  unfold getKV
  induction l with
  | nil => rfl
  | cons p rest ih =>
    rw [List.filter_cons]
    by_cases hp : p.1 = k'
    · have hpk : p.1 ≠ k := by rw [hp]; exact fun hc => h hc.symm
      rw [if_neg (by simpa using hp)]
      rw [List.find?_cons_of_neg _ (by simpa using hpk)]
      exact ih
    · rw [if_pos (by simpa using hp)]
      by_cases hk : p.1 = k
      · rw [List.find?_cons_of_pos _ (by simpa using hk),
          List.find?_cons_of_pos _ (by simpa using hk)]
      · rw [List.find?_cons_of_neg _ (by simpa using hk),
          List.find?_cons_of_neg _ (by simpa using hk)]
        exact ih

theorem getKV_filter_self {α : Type} (l : List (String × α)) (k : String) :
    getKV (List.filter (fun p => p.1 ≠ k) l) k = none := by
  unfold getKV
  rw [List.find?_eq_none.mpr]
  · rfl
  · intro x hx
    have := (List.mem_filter.mp hx).2
    simpa using this

theorem getKV_setKV_same {α : Type} (s : List (String × α)) (k : String)
    (v : α) :
    getKV (setKV s k v) k = some v := by
  unfold setKV
  rw [getKV_append, getKV_filter_self]
  have h1 : getKV [(k, v)] k = some v := by
    unfold getKV
    rw [List.find?_cons_of_pos _ (by simp)]
    rfl
  rw [h1]
  rfl

theorem getKV_setKV_other {α : Type} (s : List (String × α)) (k k' : String)
    (v : α) (hne : k' ≠ k) :
    getKV (setKV s k' v) k = getKV s k := by
  unfold setKV
  rw [getKV_append, getKV_filter_ne _ _ _ (fun hc => hne hc.symm)]
  have h2 : getKV [(k', v)] k = none := by
    unfold getKV
    rw [List.find?_cons_of_neg _ (by simpa using hne)]
    rfl
  rw [h2]
  cases getKV s k <;> rfl

theorem getKV_removeKV_same {α : Type} (s : List (String × α)) (k : String) :
    getKV (removeKV s k) k = none := by
  unfold removeKV
  exact getKV_filter_self s k

theorem getKV_removeKV_other {α : Type} (s : List (String × α)) (k k' : String)
    (hne : k ≠ k') :
    getKV (removeKV s k') k = getKV s k := by
  unfold removeKV
  exact getKV_filter_ne s k k' hne

/-! ## Crypto capability

The engine consumes cryptography only through an abstract capability
interface: GUID generation and base64 transport encoding. -/

/-- The crypto capability interface consumed by the protocol-state codec. -/
structure ICrypto where
  createNewGuid : String
  base64Encode : String → String
  base64Decode : String → String

/-! ## Protocol state codec (ProtocolUtils)

Modelled from the spec (§4.4): `encodeState` builds the library-state object
`\x7b"id": correlationId\x7d` (the browser flows additionally record the
interaction type as metadata inside it), JSON-serializes, base64-encodes,
and appends `<delimiter><callerState>` when the caller state is non-empty;
`decodeState` splits on the first delimiter occurrence, base64-decodes and
JSON-parses the first segment, and returns the remainder verbatim. -/

/-- The three interaction types a request can be opened under. -/
inductive InteractionType
  | redirect
  | popup
  | silent
  deriving DecidableEq, Repr

/-- The wire name of an interaction type inside library-state metadata. -/
def interactionTypeStr : InteractionType → String
  | .redirect => "redirect"
  | .popup => "popup"
  | .silent => "silent"

/-- Inverse of `interactionTypeStr`. -/
def parseInteractionType (s : String) : Option InteractionType :=
  if s = "redirect" then some .redirect
  else if s = "popup" then some .popup
  else if s = "silent" then some .silent
  else none

/-- The decoded library state: correlation id plus the optionally recorded
interaction type (browser metadata). -/
structure LibraryState where
  id : String
  interactionType : Option InteractionType
  deriving DecidableEq, Repr

/-- JSON serialization of a plain library-state object, `\x7b"id":"<id>"\x7d`. -/
def mkLibState (id : String) : String :=
  "\x7b\"id\":\"" ++ id ++ "\"\x7d"

/-- JSON serialization of a library-state object, with the interaction-type
metadata when present. -/
def mkLibStateMeta (st : LibraryState) : String :=
  match st.interactionType with
  | none => mkLibState st.id
  | some it =>
      "\x7b\"id\":\"" ++ st.id ++ "\",\"meta\":\x7b\"interactionType\":\"" ++
        interactionTypeStr it ++ "\"\x7d\x7d"

/-- Strip an expected leading character sequence, or fail. -/
def listStripPre : List Char → List Char → Option (List Char)
  | [], l => some l
  | _ :: _, [] => none
  | p :: ps, c :: cs => if c = p then listStripPre ps cs else none

/-- Split a character list at the first occurrence of the delimiter `d`:
the part before it, and (when `d` occurs) the part after it, verbatim. -/
def splitFirst (d : Char) : List Char → List Char × Option (List Char)
  | [] => ([], none)
  | c :: cs =>
    if c = d then ([], some cs)
    else
      let r := splitFirst d cs
      (c :: r.1, r.2)

/-- The opening characters of a serialized library state. -/
def libStatePre : List Char := "\x7b\"id\":\"".data

/-- The characters between the id's closing quote and the interaction type. -/
def metaMid : List Char := ",\"meta\":\x7b\"interactionType\":\"".data

/-- Read a quote-terminated segment: the characters before the first `"`
and the characters after it; fails when no quote occurs. -/
def quotedSegment (l : List Char) : Option (String × List Char) :=
  match splitFirst '"' l with
  | (_, none) => none
  | (seg, some rest) => some (String.mk seg, rest)

/-- Parse what follows the correlation id's closing quote: either the
closing brace of a plain library state, or the interaction-type metadata
object. -/
def parseMetaTail (rest : List Char) : Option (Option InteractionType) :=
  if rest = ['\x7d'] then some none
  else
    (listStripPre metaMid rest).bind fun rest3 =>
      (quotedSegment rest3).bind fun pr =>
        if pr.2 = ['\x7d', '\x7d'] then
          (parseInteractionType pr.1).map some
        else none

/-- JSON parse of a library-state segment: accepts exactly the shapes
produced by `mkLibStateMeta`, recovering the correlation id and, when
present, the interaction-type metadata. -/
def parseLibStateMeta (s : String) : Option LibraryState :=
  (listStripPre libStatePre s.data).bind fun rest =>
    (quotedSegment rest).bind fun pr =>
      (parseMetaTail pr.2).map fun it => ⟨pr.1, it⟩

/-- The decoded request state: the library state and the caller state. -/
structure RequestStateObject where
  libraryState : LibraryState
  userRequestState : String
  deriving DecidableEq, Repr

/-- The error taxonomy of the protocol-state codec. -/
inductive StateError
  | invalidState
  deriving DecidableEq, Repr

/-- Modelled from the spec: `ProtocolUtils.setRequestState` (§4.4
`encodeState`, source not in the snapshot; behaviour pinned by
ProtocolUtils unit tests).  Generates the correlation id via the crypto
capability, serializes and base64-encodes the library state, and appends
the delimiter and caller state only when the caller state is non-empty. -/
def setRequestState (crypto : ICrypto) (userState : String)
    (meta : Option InteractionType) : String :=
  let libraryState := crypto.base64Encode
    (mkLibStateMeta ⟨crypto.createNewGuid, meta⟩)
  if userState = "" then libraryState else libraryState ++ "|" ++ userState

/-- Modelled from the spec: `ProtocolUtils.parseRequestState` (§4.4
`decodeState`, source not in the snapshot; behaviour pinned by
ProtocolUtils unit tests).  Fails with `InvalidState` on empty input or
when the first delimiter-separated segment does not decode to a valid
library state; otherwise returns the library state and the remainder of
the input verbatim as the caller state. -/
def parseRequestState (crypto : ICrypto) (state : String) :
    Except StateError RequestStateObject :=
  if state = "" then .error .invalidState
  else
    match parseLibStateMeta (crypto.base64Decode
        (String.mk (splitFirst '|' state.data).1)) with
    | none => .error .invalidState
    | some lib =>
      .ok ⟨lib, String.mk ((splitFirst '|' state.data).2.getD [])⟩

/-- `parseRequestState` lifted to nullable input: a null state is rejected
with `InvalidState` exactly like the empty string. -/
def parseRequestStateOpt (crypto : ICrypto) (state : Option String) :
    Except StateError RequestStateObject :=
  match state with
  | none => .error .invalidState
  | some s => parseRequestState crypto s

theorem listStripPre_append (p r : List Char) :
    listStripPre p (p ++ r) = some r := by
  induction p with
  | nil => rfl
  | cons c cs ih => simp [listStripPre, ih]

theorem splitFirst_not_mem (d : Char) (l : List Char) (h : d ∉ l) :
    splitFirst d l = (l, none) := by
  induction l with
  | nil => rfl
  | cons c cs ih =>
    have hc : c ≠ d := fun he => h (by simp [he])
    have hcs : d ∉ cs := fun hm => h (by simp [hm])
    simp [splitFirst, hc, ih hcs]

theorem splitFirst_append (d : Char) (l r : List Char) (h : d ∉ l) :
    splitFirst d (l ++ d :: r) = (l, some r) := by
  induction l with
  | nil => simp [splitFirst]
  | cons c cs ih =>
    have hc : c ≠ d := fun he => h (by simp [he])
    have hcs : d ∉ cs := fun hm => h (by simp [hm])
    simp [splitFirst, hc, ih hcs]

theorem quotedSegment_append (l r : List Char) (h : '"' ∉ l) :
    quotedSegment (l ++ '"' :: r) = some (String.mk l, r) := by
  unfold quotedSegment
  rw [splitFirst_append _ _ _ h]

theorem data_mkLibState (id : String) :
    (mkLibState id).data = libStatePre ++ (id.data ++ '"' :: ['\x7d']) := by
  unfold mkLibState libStatePre
  simp [List.append_assoc]

theorem interactionTypeStr_no_quote (it : InteractionType) :
    '"' ∉ (interactionTypeStr it).data := by
  cases it <;> decide

theorem parseInteractionType_str (it : InteractionType) :
    parseInteractionType (interactionTypeStr it) = some it := by
  cases it <;> rfl

theorem parseMetaTail_plain : parseMetaTail ['\x7d'] = some none := rfl

theorem parseMetaTail_meta (it : InteractionType) :
    parseMetaTail (metaMid ++ ((interactionTypeStr it).data ++
      '"' :: ['\x7d', '\x7d'])) = some (some it) := by
  unfold parseMetaTail
  have hne : (metaMid ++ ((interactionTypeStr it).data ++
      '"' :: ['\x7d', '\x7d'])) ≠ ['\x7d'] := by
    intro hcontra
    have := congrArg List.length hcontra
    simp [metaMid] at this
  rw [if_neg hne, listStripPre_append]
  simp only [quotedSegment_append _ _ (interactionTypeStr_no_quote it),
    Option.some_bind, if_pos rfl]
  rw [show String.mk (interactionTypeStr it).data = interactionTypeStr it
    from rfl]
  rw [parseInteractionType_str]
  rfl

theorem data_mkLibStateMeta_some (id : String) (it : InteractionType) :
    (mkLibStateMeta ⟨id, some it⟩).data =
      libStatePre ++ (id.data ++ '"' :: (metaMid ++
        ((interactionTypeStr it).data ++ '"' :: ['\x7d', '\x7d']))) := by
  unfold mkLibStateMeta libStatePre metaMid
  simp [List.append_assoc]

theorem parseLibStateMeta_mkLibStateMeta (st : LibraryState)
    (hq : '"' ∉ st.id.data) :
    parseLibStateMeta (mkLibStateMeta st) = some st := by
  obtain ⟨id, it⟩ := st
  cases it with
  | none =>
    unfold parseLibStateMeta
    rw [show mkLibStateMeta ⟨id, none⟩ = mkLibState id from rfl]
    rw [data_mkLibState, listStripPre_append]
    simp [quotedSegment_append _ _ hq, parseMetaTail_plain]
  | some it =>
    unfold parseLibStateMeta
    rw [data_mkLibStateMeta_some, listStripPre_append]
    simp [quotedSegment_append _ _ hq, parseMetaTail_meta]

/-- A string is empty exactly when its character list is. -/
theorem string_eq_empty_iff (s : String) : s = "" ↔ s.data = [] := by
  cases s with
  | mk l =>
    constructor
    · intro h
      exact congrArg String.data h
    · intro h
      exact congrArg String.mk h

/-- Full codec roundtrip: under a faithful transport encoding (decode
inverts encode on the library state, the encoded segment is non-empty and
delimiter-free, the GUID is quote-free), decoding an encoded state
recovers the library state and the caller state exactly. -/
theorem parseRequestState_setRequestState (crypto : ICrypto) (s : String)
    (meta : Option InteractionType)
    (hq : '"' ∉ crypto.createNewGuid.data)
    (henc : '|' ∉
      (crypto.base64Encode (mkLibStateMeta ⟨crypto.createNewGuid, meta⟩)).data)
    (hne : crypto.base64Encode (mkLibStateMeta ⟨crypto.createNewGuid, meta⟩) ≠ "")
    (hdec : crypto.base64Decode
        (crypto.base64Encode (mkLibStateMeta ⟨crypto.createNewGuid, meta⟩)) =
      mkLibStateMeta ⟨crypto.createNewGuid, meta⟩) :
    parseRequestState crypto (setRequestState crypto s meta) =
      .ok ⟨⟨crypto.createNewGuid, meta⟩, s⟩ := by
  have hparse := parseLibStateMeta_mkLibStateMeta ⟨crypto.createNewGuid, meta⟩ hq
  by_cases hs : s = ""
  · subst hs
    have hset : setRequestState crypto "" meta =
        crypto.base64Encode (mkLibStateMeta ⟨crypto.createNewGuid, meta⟩) := by
      unfold setRequestState
      simp
    rw [hset]
    unfold parseRequestState
    rw [if_neg hne]
    simp only [splitFirst_not_mem _ _ henc]
    rw [show String.mk (crypto.base64Encode
        (mkLibStateMeta ⟨crypto.createNewGuid, meta⟩)).data =
      crypto.base64Encode (mkLibStateMeta ⟨crypto.createNewGuid, meta⟩) from rfl]
    rw [hdec, hparse]
    rfl
  · have hset : setRequestState crypto s meta =
        crypto.base64Encode (mkLibStateMeta ⟨crypto.createNewGuid, meta⟩)
          ++ "|" ++ s := by
      unfold setRequestState
      simp [hs]
    rw [hset]
    have hdata : (crypto.base64Encode (mkLibStateMeta ⟨crypto.createNewGuid, meta⟩)
        ++ "|" ++ s).data =
        (crypto.base64Encode (mkLibStateMeta ⟨crypto.createNewGuid, meta⟩)).data
          ++ '|' :: s.data := by
      rw [String.data_append, String.data_append]
      simp [List.append_assoc]
    have hstate_ne : (crypto.base64Encode
        (mkLibStateMeta ⟨crypto.createNewGuid, meta⟩) ++ "|" ++ s) ≠ "" := by
      intro hcontra
      rw [string_eq_empty_iff, hdata] at hcontra
      simp at hcontra
    unfold parseRequestState
    rw [if_neg hstate_ne]
    simp only [hdata, splitFirst_append _ _ _ henc]
    rw [show String.mk (crypto.base64Encode
        (mkLibStateMeta ⟨crypto.createNewGuid, meta⟩)).data =
      crypto.base64Encode (mkLibStateMeta ⟨crypto.createNewGuid, meta⟩) from rfl]
    rw [hdec, hparse]
    rw [show (String.mk ((some s.data).getD [])) = s from rfl]

/-- A concrete faithful crypto stub: a fixed format-stable GUID and an
identity transport encoding (injective, delimiter-preserving-free on the
inputs used here). -/
def stubCrypto : ICrypto :=
  { createNewGuid := "11553a9b-7116-48b1-9d48-f6d4a8ff8371"
    base64Encode := fun s => s
    base64Decode := fun s => s }

/-- C1: for every caller-supplied state string `s` (including the empty
string), decoding the result of encoding `s` recovers `s` exactly as the
caller state, and when `s` is non-empty the encoded form is the base64
library-state segment followed by the delimiter followed by `s` verbatim. -/
theorem C1_state_codec_roundtrip (crypto : ICrypto) (s : String)
    (hq : '"' ∉ crypto.createNewGuid.data)
    (henc : '|' ∉
      (crypto.base64Encode (mkLibStateMeta ⟨crypto.createNewGuid, none⟩)).data)
    (hne : crypto.base64Encode (mkLibStateMeta ⟨crypto.createNewGuid, none⟩) ≠ "")
    (hdec : crypto.base64Decode
        (crypto.base64Encode (mkLibStateMeta ⟨crypto.createNewGuid, none⟩)) =
      mkLibStateMeta ⟨crypto.createNewGuid, none⟩) :
    (∃ r : RequestStateObject,
        parseRequestState crypto (setRequestState crypto s none) = .ok r ∧
        r.userRequestState = s) ∧
    (s ≠ "" → setRequestState crypto s none =
      crypto.base64Encode (mkLibStateMeta ⟨crypto.createNewGuid, none⟩)
        ++ "|" ++ s) := by
  constructor
  · exact ⟨⟨⟨crypto.createNewGuid, none⟩, s⟩,
      parseRequestState_setRequestState crypto s none hq henc hne hdec, rfl⟩
  · intro hs
    unfold setRequestState
    simp [hs]

/-- Witness for C1 at a concrete crypto stub and caller states
`"userState"` and `""`. -/
theorem C1_state_codec_roundtrip_witness :
    (∃ r : RequestStateObject,
        parseRequestState stubCrypto (setRequestState stubCrypto "userState" none)
          = .ok r ∧ r.userRequestState = "userState") ∧
    ("userState" ≠ "" → setRequestState stubCrypto "userState" none =
      stubCrypto.base64Encode
        (mkLibStateMeta ⟨stubCrypto.createNewGuid, none⟩) ++ "|" ++ "userState") :=
  C1_state_codec_roundtrip stubCrypto "userState"
    (by decide) (by decide) (by decide) rfl

/-- C7: `parseRequestState` fails with `InvalidState` for null and empty
input, and for any input whose first delimiter-separated segment does not
decode to a valid library state; it never returns a decoded state for such
inputs. -/
theorem C7_parse_invalid_state (crypto : ICrypto) :
    parseRequestStateOpt crypto none = .error .invalidState ∧
    parseRequestState crypto "" = .error .invalidState ∧
    ∀ s : String,
      parseLibStateMeta (crypto.base64Decode
        (String.mk (splitFirst '|' s.data).1)) = none →
      parseRequestState crypto s = .error .invalidState ∧
      ∀ r : RequestStateObject, parseRequestState crypto s ≠ .ok r := by
  refine ⟨rfl, rfl, ?_⟩
  intro s hseg
  have herr : parseRequestState crypto s = .error .invalidState := by
    by_cases hs : s = ""
    · subst hs; rfl
    · unfold parseRequestState
      rw [if_neg hs, hseg]
  exact ⟨herr, fun r hok => by rw [herr] at hok; exact Except.noConfusion hok⟩

/-- Witness for C7 at a concrete crypto stub and the segment-free input
`"notbase64"`. -/
theorem C7_parse_invalid_state_witness :
    parseRequestState stubCrypto "notbase64" = .error .invalidState :=
  ((C7_parse_invalid_state stubCrypto).2.2 "notbase64" (by decide)).1

/-! ## Access-token selection (CacheManager)

Modelled from the spec (§4.2): enumerate credential entries, keep
candidates with matching clientId / homeAccountId / realm / scheme whose
target scope set is a superset of the requested scopes and whose
`cachedAt + expiresOn` exceeds `now + safety margin`; prefer exact
scope-set equality over pure superset, then longest remaining lifetime;
return "no cached token" (`none`) when nothing matches. -/

/-- Bearer vs proof-of-possession authentication scheme. -/
inductive AuthenticationScheme
  | bearer
  | pop
  deriving DecidableEq, Repr

/-- A cached access-token credential entity (the fields the selection rule
consults). -/
structure AccessTokenEntity where
  homeAccountId : String
  environment : String
  clientId : String
  realm : String
  target : List String
  authenticationScheme : AuthenticationScheme
  secret : String
  cachedAt : Nat
  expiresOn : Nat
  deriving DecidableEq, Repr

/-- A token request: identity, realm, required scopes and scheme. -/
structure TokenRequest where
  clientId : String
  homeAccountId : String
  realm : String
  scopes : List String
  authenticationScheme : AuthenticationScheme
  deriving DecidableEq, Repr

/-- Scope-set inclusion: every scope of `a` appears in `b`. -/
def scopeSubset (a b : List String) : Bool :=
  a.all (fun x => b.contains x)

/-- Scope-set equality (as sets). -/
def scopeSetEq (a b : List String) : Bool :=
  scopeSubset a b && scopeSubset b a

/-- Strict scope-set inclusion: `a ⊆ b` but not `b ⊆ a`. -/
def strictScopeSubset (a b : List String) : Bool :=
  scopeSubset a b && !scopeSubset b a

/-- Modelled from the spec: the candidate filter of access-token selection
(§4.2; the CacheManager source is not in the snapshot).  A cached token is
a candidate when clientId, homeAccountId, realm and scheme match, its
target scope set is a superset of the requested scopes, and
`cachedAt + expiresOn` exceeds `now + margin`. -/
def accessTokenMatches (req : TokenRequest) (now margin : Nat)
    (t : AccessTokenEntity) : Bool :=
  decide (t.clientId = req.clientId) &&
  decide (t.homeAccountId = req.homeAccountId) &&
  decide (t.realm = req.realm) &&
  decide (t.authenticationScheme = req.authenticationScheme) &&
  scopeSubset req.scopes t.target &&
  decide (now + margin < t.cachedAt + t.expiresOn)

/-- Remaining lifetime of a cached token at time `now`. -/
def remainingLifetime (now : Nat) (t : AccessTokenEntity) : Nat :=
  t.cachedAt + t.expiresOn - now

/-- Pick the candidate with the longest remaining lifetime. -/
def pickLongestLife (now : Nat) : List AccessTokenEntity →
    Option AccessTokenEntity
  | [] => none
  | t :: rest =>
    match pickLongestLife now rest with
    | none => some t
    | some u =>
      if remainingLifetime now u > remainingLifetime now t then some u
      else some t

/-- Modelled from the spec: access-token selection (§4.2; the CacheManager
source is not in the snapshot).  Filters candidates, prefers exact
scope-set equality over pure superset, then longest remaining lifetime. -/
def getAccessToken (cache : List AccessTokenEntity) (req : TokenRequest)
    (now margin : Nat) : Option AccessTokenEntity :=
  let cands := cache.filter (accessTokenMatches req now margin)
  let exact := cands.filter (fun t => scopeSetEq req.scopes t.target)
  if exact.isEmpty then pickLongestLife now cands else pickLongestLife now exact

theorem pickLongestLife_mem (now : Nat) (l : List AccessTokenEntity)
    (t : AccessTokenEntity) (h : pickLongestLife now l = some t) : t ∈ l := by
  induction l with
  | nil => exact Option.noConfusion h
  | cons a rest ih =>
    unfold pickLongestLife at h
    split at h
    · injection h with h
      exact h ▸ List.mem_cons_self a rest
    · rename_i u heq
      split at h
      · injection h with h
        subst h
        exact List.mem_cons_of_mem a (ih heq)
      · injection h with h
        exact h ▸ List.mem_cons_self a rest

theorem getAccessToken_matches (cache : List AccessTokenEntity)
    (req : TokenRequest) (now margin : Nat) (t : AccessTokenEntity)
    (h : getAccessToken cache req now margin = some t) :
    accessTokenMatches req now margin t = true := by
  unfold getAccessToken at h
  by_cases hex : (List.filter (fun t => scopeSetEq req.scopes t.target)
      (cache.filter (accessTokenMatches req now margin))).isEmpty
  · rw [if_pos hex] at h
    exact (List.mem_filter.mp (pickLongestLife_mem now _ t h)).2
  · rw [if_neg hex] at h
    have hmem := pickLongestLife_mem now _ t h
    exact (List.mem_filter.mp (List.mem_filter.mp hmem).1).2

/-- A cached token whose target strictly contains the request's scopes
(the §8 scenario: scopes `openid profile`, realm `tenant1`, 1000s life). -/
def supersetToken : AccessTokenEntity :=
  { homeAccountId := "uid.utid"
    environment := "login.microsoftonline.com"
    clientId := "client-id"
    realm := "tenant1"
    target := ["openid", "profile"]
    authenticationScheme := .bearer
    secret := "token"
    cachedAt := 0
    expiresOn := 1000 }

/-- The narrower request of the §8 scenario: scope `openid` at `tenant1`. -/
def narrowRequest : TokenRequest :=
  { clientId := "client-id"
    homeAccountId := "uid.utid"
    realm := "tenant1"
    scopes := ["openid"]
    authenticationScheme := .bearer }

/-- An exact-scope token already expired at time 500 (`cachedAt+expiresOn = 500`). -/
def expiredToken : AccessTokenEntity :=
  { homeAccountId := "uid.utid"
    environment := "login.microsoftonline.com"
    clientId := "client-id"
    realm := "tenant1"
    target := ["openid"]
    authenticationScheme := .bearer
    secret := "expired-token"
    cachedAt := 0
    expiresOn := 500 }

/-- An exact-scope token still fresh at time 500. -/
def freshToken : AccessTokenEntity :=
  { homeAccountId := "uid.utid"
    environment := "login.microsoftonline.com"
    clientId := "client-id"
    realm := "tenant1"
    target := ["openid"]
    authenticationScheme := .bearer
    secret := "fresh-token"
    cachedAt := 0
    expiresOn := 1000 }

/-- C2: access-token selection never returns a token whose target scope
set is a strict subset of the requested scopes, and never returns an
expired token — a token with `cachedAt + expiresOn` equal to `now` counts
as expired; a token whose target is a strict superset of the requested
scopes may be returned. -/
theorem C2_access_token_selection :
    (∀ (cache : List AccessTokenEntity) (req : TokenRequest)
        (now margin : Nat) (t : AccessTokenEntity),
      getAccessToken cache req now margin = some t →
        strictScopeSubset t.target req.scopes = false ∧
        scopeSubset req.scopes t.target = true ∧
        now + margin < t.cachedAt + t.expiresOn ∧
        t.cachedAt + t.expiresOn ≠ now) ∧
    (∃ (cache : List AccessTokenEntity) (req : TokenRequest)
        (now margin : Nat) (t : AccessTokenEntity),
      getAccessToken cache req now margin = some t ∧
      strictScopeSubset req.scopes t.target = true) := by
  constructor
  · intro cache req now margin t h
    have hm := getAccessToken_matches cache req now margin t h
    unfold accessTokenMatches at hm
    simp only [Bool.and_eq_true, decide_eq_true_eq] at hm
    obtain ⟨⟨_, hsub⟩, hfresh⟩ := hm
    refine ⟨?_, hsub, hfresh, ?_⟩
    · unfold strictScopeSubset
      simp [hsub]
    · omega
  · exact ⟨[supersetToken], narrowRequest, 500, 0, supersetToken,
      by decide, by decide⟩

/-- Witness for C2's selection guarantee at a concrete cache holding one
fresh token and one expired token. -/
theorem C2_access_token_selection_witness :
    strictScopeSubset freshToken.target narrowRequest.scopes = false ∧
    scopeSubset narrowRequest.scopes freshToken.target = true ∧
    500 + 0 < freshToken.cachedAt + freshToken.expiresOn ∧
    freshToken.cachedAt + freshToken.expiresOn ≠ 500 :=
  C2_access_token_selection.1 [expiredToken, freshToken] narrowRequest
    500 0 freshToken (by decide)

/-! ## Storage backend selection (BrowserCacheManager constructor)

Modelled from the spec (§4.1): the caller requests one of durable, session
or in-memory storage; when the requested medium is unavailable or throws
on probe, the adapter silently downgrades to in-memory for the lifetime of
the instance. -/

/-- The three cache locations a caller can request. -/
inductive CacheLocation
  | localStorage
  | sessionStorage
  | memoryStorage
  deriving DecidableEq, Repr

/-- Parse a configured cache-location string. -/
def parseCacheLocation (s : String) : Option CacheLocation :=
  if s = "localStorage" then some .localStorage
  else if s = "sessionStorage" then some .sessionStorage
  else if s = "memoryStorage" then some .memoryStorage
  else none

/-- The browser environment: whether each window storage medium is usable.
`false` models both a null medium and one that throws when probed. -/
structure BrowserEnv where
  localStorageAvailable : Bool
  sessionStorageAvailable : Bool

/-- Modelled from the spec: backend selection at construction (§4.1; the
BrowserCacheManager source is not in the snapshot; behaviour pinned by its
constructor tests).  The requested medium is probed once; when the
location string names no supported medium, or the medium is unavailable,
the manager silently falls back to in-memory storage.  Selection is a
total function: no error is surfaced to the caller. -/
def chooseBackend (env : BrowserEnv) (loc : String) : CacheLocation :=
  match parseCacheLocation loc with
  | some .localStorage =>
    if env.localStorageAvailable then .localStorage else .memoryStorage
  | some .sessionStorage =>
    if env.sessionStorageAvailable then .sessionStorage else .memoryStorage
  | some .memoryStorage => .memoryStorage
  | none => .memoryStorage

/-- The two shared window media plus the instance's in-memory map. -/
structure BrowserStores where
  localStore : Store
  sessionStore : Store
  memoryStore : Store
  deriving Repr

/-- `setItem` writes to the chosen backend only. -/
def setItem (backend : CacheLocation) (st : BrowserStores) (k v : String) :
    BrowserStores :=
  match backend with
  | .localStorage => { st with localStore := setKV st.localStore k v }
  | .sessionStorage => { st with sessionStore := setKV st.sessionStore k v }
  | .memoryStorage => { st with memoryStore := setKV st.memoryStore k v }

/-- `getItem` reads from the chosen backend only. -/
def getItem (backend : CacheLocation) (st : BrowserStores) (k : String) :
    Option String :=
  match backend with
  | .localStorage => getKV st.localStore k
  | .sessionStorage => getKV st.sessionStore k
  | .memoryStorage => getKV st.memoryStore k

/-- C4: when the requested storage medium is unavailable (the configured
location names no supported medium, or the medium is null/throws on
probe), construction silently selects the in-memory backend, a subsequent
set/get round-trip succeeds, and nothing is written to the durable or
session medium. -/
theorem C4_memory_fallback (env : BrowserEnv) (loc : String)
    (st : BrowserStores) (k v : String)
    (hunavail : parseCacheLocation loc = none ∨
      (parseCacheLocation loc = some .localStorage ∧
        env.localStorageAvailable = false) ∨
      (parseCacheLocation loc = some .sessionStorage ∧
        env.sessionStorageAvailable = false)) :
    chooseBackend env loc = .memoryStorage ∧
    getItem (chooseBackend env loc) (setItem (chooseBackend env loc) st k v) k
      = some v ∧
    (setItem (chooseBackend env loc) st k v).localStore = st.localStore ∧
    (setItem (chooseBackend env loc) st k v).sessionStore = st.sessionStore := by
  have hmem : chooseBackend env loc = .memoryStorage := by
    unfold chooseBackend
    rcases hunavail with h | ⟨h, ha⟩ | ⟨h, ha⟩ <;> rw [h] <;> simp [ha]
  refine ⟨hmem, ?_, ?_, ?_⟩ <;> rw [hmem]
  · exact getKV_setKV_same st.memoryStore k v
  · rfl
  · rfl

/-- Witness for C4 at the constructor test's configuration: cache location
`"notALocation"` on a window with both media usable. -/
theorem C4_memory_fallback_witness :
    chooseBackend ⟨true, true⟩ "notALocation" = .memoryStorage ∧
    getItem (chooseBackend ⟨true, true⟩ "notALocation")
      (setItem (chooseBackend ⟨true, true⟩ "notALocation") ⟨[], [], []⟩
        "key" "value") "key" = some "value" ∧
    (setItem (chooseBackend ⟨true, true⟩ "notALocation") ⟨[], [], []⟩
      "key" "value").localStore = BrowserStores.localStore ⟨[], [], []⟩ ∧
    (setItem (chooseBackend ⟨true, true⟩ "notALocation") ⟨[], [], []⟩
      "key" "value").sessionStore = BrowserStores.sessionStore ⟨[], [], []⟩ :=
  C4_memory_fallback ⟨true, true⟩ "notALocation" ⟨[], [], []⟩ "key" "value"
    (Or.inl (by decide))

/-! ## Typed entity getters

Modelled from the spec (§4.2, §7): each entity kind's getter reads the
stored string, JSON-parses it, and admits it only through the kind's
validity predicate; absence, unparseable content and predicate failure all
degrade to a null result for that entry alone. -/

/-- An entity kind's codec: JSON parse into the typed record plus the
kind's validity predicate. -/
structure EntityCodec (α : Type) where
  parse : String → Option α
  isValid : α → Bool

/-- The entity kinds served by typed getters. -/
inductive EntityKind
  | account
  | idToken
  | accessToken
  | refreshToken
  | appMetadata
  | serverTelemetry
  | throttling
  deriving DecidableEq, Repr

/-- Modelled from the spec: the shared read path of every typed getter
(`getAccount`, `getIdTokenCredential`, `getAccessTokenCredential`,
`getRefreshTokenCredential`, `getAppMetadata`, `getServerTelemetry`,
`getThrottlingCache`; source not in the snapshot, behaviour pinned by the
getter tests).  Absent key, unparseable JSON and predicate failure all
produce a null result; only a validated entity is returned, whole. -/
def getTypedEntity {α : Type} (c : EntityCodec α) (store : Store)
    (key : String) : Option α :=
  match getKV store key with
  | none => none
  | some v =>
    match c.parse v with
    | none => none
    | some e => if c.isValid e then some e else none

/-- C5: for every entity kind's codec and every key, the typed getter
returns null when the key is absent, when the stored value fails to parse,
and when the parsed value fails the validity predicate — never a partial
object and never an error — and corrupting a different entry leaves the
read unchanged. -/
theorem C5_typed_getter_null_on_corruption {α : Type} (c : EntityCodec α)
    (store : Store) (key : String) :
    (getKV store key = none → getTypedEntity c store key = none) ∧
    (∀ v, getKV store key = some v → c.parse v = none →
      getTypedEntity c store key = none) ∧
    (∀ v e, getKV store key = some v → c.parse v = some e →
      c.isValid e = false → getTypedEntity c store key = none) ∧
    (∀ e, getTypedEntity c store key = some e → c.isValid e = true) ∧
    (∀ k' v', k' ≠ key →
      getTypedEntity c (setKV store k' v') key = getTypedEntity c store key) := by
  refine ⟨?_, ?_, ?_, ?_, ?_⟩
  · intro h
    simp only [getTypedEntity, h]
  · intro v hv hp
    simp only [getTypedEntity, hv, hp]
  · intro v e hv hp hval
    simp only [getTypedEntity, hv, hp, hval]
    rfl
  · intro e h
    simp only [getTypedEntity] at h
    cases hv : getKV store key with
    | none =>
      simp only [hv] at h
      exact Option.noConfusion h
    | some v =>
      simp only [hv] at h
      cases hp : c.parse v with
      | none =>
        simp only [hp] at h
        exact Option.noConfusion h
      | some e' =>
        simp only [hp] at h
        by_cases hval : c.isValid e' = true
        · rw [if_pos hval] at h
          injection h with h
          exact h ▸ hval
        · rw [if_neg hval] at h
          exact Option.noConfusion h
  · intro k' v' hne
    simp only [getTypedEntity, getKV_setKV_other store key k' v' hne]

/-- A concrete codec standing in for a kind's parse + validity predicate:
parses a non-empty decimal string, admits positive values. -/
def natCodec : EntityCodec Nat :=
  { parse := fun s =>
      if s.data.all Char.isDigit && !s.data.isEmpty then
        some (s.data.foldl (fun n c => n * 10 + (c.toNat - 48)) 0)
      else none
    isValid := fun n => decide (0 < n) }

/-- Witness for C5 at a concrete codec and a store holding one corrupt
entry: the corrupt entry reads as null, and corrupting it did not change
the read of the neighbouring valid entry. -/
theorem C5_typed_getter_null_on_corruption_witness :
    getTypedEntity natCodec [("good", "7"), ("bad", "this is not json")] "bad"
      = none ∧
    getTypedEntity natCodec
        (setKV [("good", "7")] "bad" "this is not json") "good" =
      getTypedEntity natCodec [("good", "7")] "good" :=
  ⟨(C5_typed_getter_null_on_corruption natCodec
      [("good", "7"), ("bad", "this is not json")] "bad").2.1
      "this is not json" (by decide) (by decide),
   (C5_typed_getter_null_on_corruption natCodec [("good", "7")] "good").2.2.2.2
      "bad" "this is not json" (by decide)⟩

/-! ## Temporary-cache key grammar

From the spec (§3, §4.5, §6): temporary entries are request-scoped —
state, nonce, authority and base64-encoded request parameters, each keyed
by the request's correlation id under the library prefix and client id. -/

/-- The fixed library cache-key prefix. -/
def CACHE_PREFIX : String := "msal"

/-- `<libprefix>.<clientId>.<name>` — the client-scoped cache key. -/
def generateCacheKey (clientId name : String) : String :=
  CACHE_PREFIX ++ "." ++ clientId ++ "." ++ name

/-- The temporary authority key for a correlation id. -/
def authorityKey (clientId corrId : String) : String :=
  generateCacheKey clientId ("authority." ++ corrId)

/-- The temporary nonce key for a correlation id. -/
def nonceKey (clientId corrId : String) : String :=
  generateCacheKey clientId ("nonce.idtoken." ++ corrId)

/-- The temporary request-params key for a correlation id. -/
def requestParamsKey (clientId corrId : String) : String :=
  generateCacheKey clientId ("request.params." ++ corrId)

/-- The temporary request-state key for a correlation id. -/
def requestStateKey (clientId corrId : String) : String :=
  generateCacheKey clientId ("request.state." ++ corrId)

/-! ## Cached request retrieval (getCachedRequest) -/

/-- The pending authorization-code request persisted across the redirect
round trip (including the PKCE verifier). -/
structure CachedRequest where
  redirectUri : String
  code : String
  codeVerifier : String
  correlationId : String
  authority : String
  scopes : List String
  deriving DecidableEq, Repr

/-- Split a character list at every occurrence of the delimiter. -/
def splitAllChar (d : Char) : List Char → List (List Char)
  | [] => [[]]
  | c :: cs =>
    match splitAllChar d cs with
    | [] => [[]]
    | hd :: tl => if c = d then [] :: hd :: tl else (c :: hd) :: tl

/-- Space-join a scope list (the `target`-style wire form). -/
def joinScopes : List String → String
  | [] => ""
  | [s] => s
  | s :: rest => s ++ " " ++ joinScopes rest

/-- Split a space-joined scope string back into a scope list. -/
def parseScopes (s : String) : List String :=
  if s = "" then [] else (splitAllChar ' ' s.data).map String.mk

/-- Modelled from the spec: the serialization of the pending request that
is base64-encoded into the temporary request-params entry (§3/§4.5; a
reversible record format stands in for the JSON serialization). -/
def serializeRequest (r : CachedRequest) : String :=
  r.redirectUri ++ "\n" ++ r.code ++ "\n" ++ r.codeVerifier ++ "\n" ++
    r.correlationId ++ "\n" ++ r.authority ++ "\n" ++ joinScopes r.scopes

/-- Parse of a serialized pending request: exactly six fields, or failure
(a corrupt or truncated blob parses to nothing). -/
def parseCachedRequest (s : String) : Option CachedRequest :=
  match splitAllChar '\n' s.data with
  | [ru, c, cv, cid, auth, sc] =>
    some ⟨String.mk ru, String.mk c, String.mk cv, String.mk cid,
      String.mk auth, parseScopes (String.mk sc)⟩
  | _ => none

/-- A request whose string fields are newline-free and whose scopes are
non-empty, space-free and newline-free (every real request is). -/
def wellFormedRequest (r : CachedRequest) : Prop :=
  '\n' ∉ r.redirectUri.data ∧ '\n' ∉ r.code.data ∧ '\n' ∉ r.codeVerifier.data ∧
  '\n' ∉ r.correlationId.data ∧ '\n' ∉ r.authority.data ∧
  ∀ s ∈ r.scopes, s ≠ "" ∧ ' ' ∉ s.data ∧ '\n' ∉ s.data

theorem splitAllChar_ne_nil (d : Char) (l : List Char) :
    splitAllChar d l ≠ [] := by
  induction l with
  | nil => simp [splitAllChar]
  | cons c cs ih =>
    unfold splitAllChar
    cases h : splitAllChar d cs with
    | nil => exact absurd h ih
    | cons hd tl => by_cases hc : c = d <;> simp [hc]

theorem splitAllChar_not_mem (d : Char) (l : List Char) (h : d ∉ l) :
    splitAllChar d l = [l] := by
  induction l with
  | nil => rfl
  | cons c cs ih =>
    have hc : c ≠ d := fun he => h (by simp [he])
    have hcs : d ∉ cs := fun hm => h (by simp [hm])
    unfold splitAllChar
    rw [ih hcs]
    simp [hc]

theorem splitAllChar_cons (d c : Char) (cs : List Char) :
    splitAllChar d (c :: cs) =
      match splitAllChar d cs with
      | [] => [[]]
      | hd :: tl => if c = d then [] :: hd :: tl else (c :: hd) :: tl := rfl

theorem splitAllChar_append (d : Char) (l r : List Char) (h : d ∉ l) :
    splitAllChar d (l ++ d :: r) = l :: splitAllChar d r := by
  induction l with
  | nil =>
    show splitAllChar d (d :: r) = [] :: splitAllChar d r
    rw [splitAllChar_cons]
    cases hsp : splitAllChar d r with
    | nil => exact absurd hsp (splitAllChar_ne_nil d r)
    | cons hd tl => simp
  | cons c cs ih =>
    have hc : c ≠ d := fun he => h (by simp [he])
    have hcs : d ∉ cs := fun hm => h (by simp [hm])
    show splitAllChar d (c :: (cs ++ d :: r)) = (c :: cs) :: splitAllChar d r
    rw [splitAllChar_cons, ih hcs]
    simp [hc]

theorem joinScopes_cons_data (a b : String) (others : List String) :
    (joinScopes (a :: b :: others)).data =
      a.data ++ ' ' :: (joinScopes (b :: others)).data := by
  rw [show joinScopes (a :: b :: others) =
    a ++ " " ++ joinScopes (b :: others) from rfl]
  rw [String.data_append, String.data_append]
  simp [List.append_assoc]

theorem joinScopes_no_newline (scopes : List String)
    (h : ∀ s ∈ scopes, '\n' ∉ s.data) :
    '\n' ∉ (joinScopes scopes).data := by
  induction scopes with
  | nil => simp [joinScopes]
  | cons a rest ih =>
    have ha := h a (by simp)
    have hrest : ∀ s ∈ rest, '\n' ∉ s.data :=
      fun s hs => h s (List.mem_cons_of_mem a hs)
    cases rest with
    | nil => exact ha
    | cons b others =>
      rw [joinScopes_cons_data]
      intro hmem
      rcases List.mem_append.mp hmem with hin | hin
      · exact ha hin
      · rcases List.mem_cons.mp hin with he | hin
        · exact absurd he (by decide)
        · exact ih hrest hin

/-- The scope joiner and splitter are inverse on well-formed scope lists. -/
theorem parseScopes_joinScopes (scopes : List String)
    (h : ∀ s ∈ scopes, s ≠ "" ∧ ' ' ∉ s.data) :
    parseScopes (joinScopes scopes) = scopes := by
  induction scopes with
  | nil => rfl
  | cons a rest ih =>
    cases rest with
    | nil =>
      have ha := h a (by simp)
      unfold joinScopes parseScopes
      rw [if_neg ha.1, splitAllChar_not_mem _ _ ha.2]
      rfl
    | cons b others =>
      have ha := h a (by simp)
      have hrest : ∀ s ∈ b :: others, s ≠ "" ∧ ' ' ∉ s.data := by
        intro s hs
        exact h s (List.mem_cons_of_mem a hs)
      have hne : joinScopes (a :: b :: others) ≠ "" := by
        intro hcontra
        rw [string_eq_empty_iff, joinScopes_cons_data] at hcontra
        simp at hcontra
      have hjne : joinScopes (b :: others) ≠ "" := by
        have hb := hrest b (by simp)
        cases others with
        | nil => exact hb.1
        | cons c cs =>
          intro hcontra
          rw [string_eq_empty_iff, joinScopes_cons_data] at hcontra
          simp at hcontra
      have ihr := ih hrest
      unfold parseScopes at ihr ⊢
      rw [if_neg hne, joinScopes_cons_data, splitAllChar_append _ _ _ ha.2]
      rw [if_neg hjne] at ihr
      simp only [List.map_cons]
      rw [ihr]

/-- Serialize/parse roundtrip for well-formed pending requests. -/
theorem parseCachedRequest_serializeRequest (r : CachedRequest)
    (h : wellFormedRequest r) :
    parseCachedRequest (serializeRequest r) = some r := by
  obtain ⟨ru, c, cv, cid, auth, sc⟩ := r
  obtain ⟨h1, h2, h3, h4, h5, hsc⟩ := h
  have hscn : '\n' ∉ (joinScopes sc).data :=
    joinScopes_no_newline sc (fun s hs => (hsc s hs).2.2)
  have hdata : (serializeRequest ⟨ru, c, cv, cid, auth, sc⟩).data =
      ru.data ++ '\n' :: (c.data ++ '\n' :: (cv.data ++ '\n' ::
        (cid.data ++ '\n' :: (auth.data ++ '\n' ::
          (joinScopes sc).data)))) := by
    unfold serializeRequest
    simp only [String.data_append]
    simp [List.append_assoc]
  have hps := parseScopes_joinScopes sc
    (fun s hs => ⟨(hsc s hs).1, (hsc s hs).2.1⟩)
  unfold parseCachedRequest
  rw [hdata, splitAllChar_append _ _ _ h1, splitAllChar_append _ _ _ h2,
    splitAllChar_append _ _ _ h3, splitAllChar_append _ _ _ h4,
    splitAllChar_append _ _ _ h5, splitAllChar_not_mem _ _ hscn]
  show some (CachedRequest.mk (String.mk ru.data) (String.mk c.data)
      (String.mk cv.data) (String.mk cid.data) (String.mk auth.data)
      (parseScopes (String.mk (joinScopes sc).data))) =
    some (CachedRequest.mk ru c cv cid auth sc)
  rw [show String.mk (joinScopes sc).data = joinScopes sc from rfl, hps]

/-- The error taxonomy of cached-request retrieval. -/
inductive CachedRequestError
  | noCachedRequest
  | unparseableCachedRequest
  | noCachedAuthority
  deriving DecidableEq, Repr

/-- Modelled from the spec: `BrowserCacheManager.getCachedRequest`
(§4.5/§7; source not in the snapshot; behaviour pinned by its tests).
Reads the temporary request-params blob recorded for the request
identifier (the correlation id recovered from the returned state), failing
with `NoCachedRequest` when absent and `UnparseableCachedRequest` when the
stored content cannot be decoded; when the parsed request carries an empty
authority, the authority recorded in the temporary cache for that
correlation id is the sole fallback source. -/
def getCachedRequest (crypto : ICrypto) (clientId : String) (store : Store)
    (corrId : String) : Except CachedRequestError CachedRequest :=
  match getKV store (requestParamsKey clientId corrId) with
  | none => .error .noCachedRequest
  | some enc =>
    match parseCachedRequest (crypto.base64Decode enc) with
    | none => .error .unparseableCachedRequest
    | some req =>
      if req.authority = "" then
        match getKV store (authorityKey clientId corrId) with
        | none => .error .noCachedAuthority
        | some auth => .ok { req with authority := auth }
      else .ok req

/-- C6: for every stored request whose cached request parameters carry an
empty authority, `getCachedRequest` returns a request whose authority
equals the value recorded in the temporary cache under the authority key
for that request's correlation id; the cached authority entry is the sole
fallback source. -/
theorem C6_authority_fallback (crypto : ICrypto) (clientId corrId : String)
    (store : Store) (req : CachedRequest) (auth : String)
    (hwf : wellFormedRequest req)
    (hempty : req.authority = "")
    (hparams : getKV store (requestParamsKey clientId corrId) =
      some (crypto.base64Encode (serializeRequest req)))
    (hdec : crypto.base64Decode (crypto.base64Encode (serializeRequest req)) =
      serializeRequest req)
    (hauth : getKV store (authorityKey clientId corrId) = some auth) :
    getCachedRequest crypto clientId store corrId =
      .ok { req with authority := auth } ∧
    ({ req with authority := auth } : CachedRequest).authority = auth := by
  refine ⟨?_, rfl⟩
  unfold getCachedRequest
  rw [hparams]
  simp [hdec, parseCachedRequest_serializeRequest req hwf, hempty, hauth]

/-- A concrete pending request whose caller omitted the authority. -/
def noAuthorityRequest : CachedRequest :=
  { redirectUri := "https://localhost:8081/index.html"
    code := "thisIsACode"
    codeVerifier := "TestVerifier"
    correlationId := "11553a9b-7116-48b1-9d48-f6d4a8ff8371"
    authority := ""
    scopes := ["client-id"] }

/-- Witness for C6 at a concrete store holding the request-params blob and
a recorded authority for the same correlation id. -/
theorem C6_authority_fallback_witness :
    getCachedRequest stubCrypto "client-id"
        [(requestParamsKey "client-id" "guid",
            stubCrypto.base64Encode (serializeRequest noAuthorityRequest)),
         (authorityKey "client-id" "guid",
            "https://login.windows-ppe.net/common/")] "guid" =
      .ok { noAuthorityRequest with
              authority := "https://login.windows-ppe.net/common/" } ∧
    ({ noAuthorityRequest with
        authority := "https://login.windows-ppe.net/common/" } :
      CachedRequest).authority = "https://login.windows-ppe.net/common/" :=
  C6_authority_fallback stubCrypto "client-id" "guid" _ noAuthorityRequest
    "https://login.windows-ppe.net/common/"
    (by unfold wellFormedRequest noAuthorityRequest; decide)
    rfl (by decide) rfl (by decide)

/-- C8: `getCachedRequest` raises the no-cached-request error exactly when
no temporary request-params entry exists for the given identifier, and the
distinct unparseable-cached-request error when the entry exists but its
stored content cannot be decoded; in both cases no request is returned. -/
theorem C8_cached_request_errors (crypto : ICrypto) (clientId corrId : String)
    (store : Store) :
    (getKV store (requestParamsKey clientId corrId) = none →
      getCachedRequest crypto clientId store corrId =
        .error .noCachedRequest) ∧
    (∀ enc, getKV store (requestParamsKey clientId corrId) = some enc →
      parseCachedRequest (crypto.base64Decode enc) = none →
      getCachedRequest crypto clientId store corrId =
        .error .unparseableCachedRequest) ∧
    CachedRequestError.noCachedRequest ≠
      CachedRequestError.unparseableCachedRequest ∧
    (∀ e r, getCachedRequest crypto clientId store corrId = .error e →
      getCachedRequest crypto clientId store corrId ≠ .ok r) := by
  refine ⟨?_, ?_, by decide, ?_⟩
  · intro h
    unfold getCachedRequest
    rw [h]
  · intro enc h hp
    unfold getCachedRequest
    rw [h]
    simp [hp]
  · intro e r he hok
    rw [he] at hok
    exact Except.noConfusion hok

/-- Witness for C8: an empty temporary cache yields `NoCachedRequest`; a
truncated request-params blob yields `UnparseableCachedRequest`. -/
theorem C8_cached_request_errors_witness :
    getCachedRequest stubCrypto "client-id" [] "guid" =
      .error .noCachedRequest ∧
    getCachedRequest stubCrypto "client-id"
        [(requestParamsKey "client-id" "guid", "truncated")] "guid" =
      .error .unparseableCachedRequest :=
  ⟨(C8_cached_request_errors stubCrypto "client-id" "guid" []).1 rfl,
   (C8_cached_request_errors stubCrypto "client-id" "guid"
      [(requestParamsKey "client-id" "guid", "truncated")]).2.1
      "truncated" (by decide) (by decide)⟩

/-! ## Authority metadata (memory-only)

Modelled from the spec (§3, §4.1, §4.3): authority metadata is held only
in a process-lifetime map, never in durable storage; `clear()` removes the
library-prefixed backend entries and resets the in-memory map. -/

/-- Resolved endpoints/aliases for an authority, with staleness flags
distinguishing network-sourced from hint-sourced data. -/
structure AuthorityMetadataEntity where
  aliases : List String
  preferred_cache : String
  preferred_network : String
  canonical_authority : String
  aliasesFromNetwork : Bool
  endpointsFromNetwork : Bool
  deriving DecidableEq, Repr

/-- The authority-metadata validity predicate: required-field presence. -/
def isAuthorityMetadataEntity (e : AuthorityMetadataEntity) : Bool :=
  decide (e.canonical_authority ≠ "") &&
  decide (e.preferred_cache ≠ "") &&
  decide (e.preferred_network ≠ "") &&
  !e.aliases.isEmpty

/-- Whether a key carries the fixed library prefix. -/
def hasLibPre (k : String) : Bool :=
  (CACHE_PREFIX ++ ".").data.isPrefixOf k.data

/-- A cache-manager instance's state: the chosen backend medium plus the
process-lifetime in-memory authority-metadata map. -/
structure CacheManagerState where
  backend : Store
  internalAuthorityMap : List (String × AuthorityMetadataEntity)
  deriving Repr

/-- Modelled from the spec: `setAuthorityMetadata` writes only the
process-lifetime map, never the backend medium (§3). -/
def setAuthorityMetadata (st : CacheManagerState) (key : String)
    (e : AuthorityMetadataEntity) : CacheManagerState :=
  { st with internalAuthorityMap := setKV st.internalAuthorityMap key e }

/-- Modelled from the spec: `getAuthorityMetadata` reads the in-memory map
and admits the entity only through its validity predicate. -/
def getAuthorityMetadata (st : CacheManagerState) (key : String) :
    Option AuthorityMetadataEntity :=
  match getKV st.internalAuthorityMap key with
  | none => none
  | some e => if isAuthorityMetadataEntity e then some e else none

/-- The keys of the in-memory authority-metadata map. -/
def getAuthorityMetadataKeys (st : CacheManagerState) : List String :=
  keysOf st.internalAuthorityMap

/-- `containsKey` consults the backend medium (authority metadata is not
stored there). -/
def containsKey (st : CacheManagerState) (key : String) : Bool :=
  containsKV st.backend key

/-- Modelled from the spec: `clear()` removes every library-prefixed entry
of the backend medium and resets the in-memory authority-metadata map
(§4.1). -/
def clear (st : CacheManagerState) : CacheManagerState :=
  { backend := List.filter (fun p => !hasLibPre p.1) st.backend
    internalAuthorityMap := [] }

/-- C9: authority metadata written via `setAuthorityMetadata` is never
persisted to the backend medium — the backend is untouched and
`containsKey` stays false while `getAuthorityMetadata` serves the entity
from the process-lifetime map — and `clear()` resets the in-memory map so
the entity reads as null and the key enumeration is empty afterward. -/
theorem C9_authority_metadata_memory_only (st : CacheManagerState)
    (key : String) (e : AuthorityMetadataEntity)
    (hvalid : isAuthorityMetadataEntity e = true)
    (hnotin : containsKey st key = false) :
    (setAuthorityMetadata st key e).backend = st.backend ∧
    containsKey (setAuthorityMetadata st key e) key = false ∧
    getAuthorityMetadata (setAuthorityMetadata st key e) key = some e ∧
    getAuthorityMetadata (clear (setAuthorityMetadata st key e)) key = none ∧
    getAuthorityMetadataKeys (clear (setAuthorityMetadata st key e)) = [] := by
  refine ⟨rfl, hnotin, ?_, rfl, rfl⟩
  unfold getAuthorityMetadata setAuthorityMetadata
  simp only [getKV_setKV_same, hvalid, if_pos]

/-- A concrete valid authority-metadata entity. -/
def testAuthorityMetadata : AuthorityMetadataEntity :=
  { aliases := ["login.microsoftonline.com"]
    preferred_cache := "login.microsoftonline.com"
    preferred_network := "login.microsoftonline.com"
    canonical_authority := "https://login.microsoftonline.com/common/"
    aliasesFromNetwork := false
    endpointsFromNetwork := false }

/-- Witness for C9 at a fresh cache-manager instance and a concrete
authority-metadata entity. -/
theorem C9_authority_metadata_memory_only_witness :
    (setAuthorityMetadata ⟨[], []⟩ "authority-metadata-key"
      testAuthorityMetadata).backend = CacheManagerState.backend ⟨[], []⟩ ∧
    containsKey (setAuthorityMetadata ⟨[], []⟩ "authority-metadata-key"
      testAuthorityMetadata) "authority-metadata-key" = false ∧
    getAuthorityMetadata (setAuthorityMetadata ⟨[], []⟩
      "authority-metadata-key" testAuthorityMetadata)
      "authority-metadata-key" = some testAuthorityMetadata ∧
    getAuthorityMetadata (clear (setAuthorityMetadata ⟨[], []⟩
      "authority-metadata-key" testAuthorityMetadata))
      "authority-metadata-key" = none ∧
    getAuthorityMetadataKeys (clear (setAuthorityMetadata ⟨[], []⟩
      "authority-metadata-key" testAuthorityMetadata)) = [] :=
  C9_authority_metadata_memory_only ⟨[], []⟩ "authority-metadata-key"
    testAuthorityMetadata (by decide) rfl

/-! ## Request cleanup by interaction type

Modelled from the spec (§4.5 Abandoned): `cleanRequestByInteractionType`
scans the temporary request-state entries, decodes each recorded state to
read its interaction type, and for every match removes that request's
temporary entries (the state entry and the entries keyed by its
correlation id); entries of other interaction types are left untouched. -/

/-- One in-flight request's record: its correlation id, recorded
interaction type, and the values written at `Started` time (§4.5). -/
structure RequestRecord where
  corrId : String
  interaction : InteractionType
  stateVal : String
  nonceVal : String
  authorityVal : String
  paramsVal : String
  deriving DecidableEq, Repr

/-- The four temporary entries written when a request starts: state,
nonce, authority and request parameters, all keyed by the correlation id. -/
def requestEntries (clientId : String) (r : RequestRecord) : Store :=
  [(requestStateKey clientId r.corrId, r.stateVal),
   (nonceKey clientId r.corrId, r.nonceVal),
   (authorityKey clientId r.corrId, r.authorityVal),
   (requestParamsKey clientId r.corrId, r.paramsVal)]

/-- The temporary keys belonging to one request scope. -/
def requestScopeKeys (clientId corrId : String) : List String :=
  [requestStateKey clientId corrId, nonceKey clientId corrId,
   authorityKey clientId corrId, requestParamsKey clientId corrId]

/-- Whether a cache key is a temporary request-state key of this client. -/
def isRequestStateKey (clientId k : String) : Bool :=
  (generateCacheKey clientId "request.state.").data.isPrefixOf k.data

/-- The correlation ids of every temporary request-state entry whose
recorded interaction type (decoded from the stored state value) is `t`. -/
def matchedCorrIds (crypto : ICrypto) (clientId : String) (store : Store)
    (t : InteractionType) : List String :=
  store.filterMap fun kv =>
    if isRequestStateKey clientId kv.1 then
      match parseRequestState crypto kv.2 with
      | .ok pr =>
        if pr.libraryState.interactionType = some t then
          some pr.libraryState.id
        else none
      | .error _ => none
    else none

/-- Modelled from the spec: `cleanRequestByInteractionType` (§4.5; source
not in the snapshot; behaviour pinned by its tests).  Every temporary
entry belonging to a request scope whose recorded interaction type is `t`
is removed; every other entry is kept. -/
def cleanRequestByInteractionType (crypto : ICrypto) (clientId : String)
    (store : Store) (t : InteractionType) : Store :=
  store.filter fun kv =>
    !((matchedCorrIds crypto clientId store t).any fun cid =>
      decide (kv.1 ∈ requestScopeKeys clientId cid))

theorem string_data_inj {s t : String} (h : s.data = t.data) : s = t := by
  cases s
  cases t
  exact congrArg String.mk h

theorem nil_isPrefixOf (l : List Char) :
    ([] : List Char).isPrefixOf l = true := by
  cases l <;> rfl

theorem cons_isPrefixOf_cons_eq (a b : Char) (as bs : List Char) :
    (a :: as).isPrefixOf (b :: bs) = (a == b && as.isPrefixOf bs) := rfl

theorem isPrefixOf_append_self (l r : List Char) :
    l.isPrefixOf (l ++ r) = true := by
  induction l with
  | nil => exact nil_isPrefixOf r
  | cons a as ih =>
    show (a == a && as.isPrefixOf (as ++ r)) = true
    simp [ih]

theorem isPrefixOf_append_cancel (m b c : List Char) :
    (m ++ b).isPrefixOf (m ++ c) = b.isPrefixOf c := by
  induction m with
  | nil => rfl
  | cons a as ih =>
    show (a == a && (as ++ b).isPrefixOf (as ++ c)) = b.isPrefixOf c
    simp [ih]

theorem isRequestStateKey_state (clientId corrId : String) :
    isRequestStateKey clientId (requestStateKey clientId corrId) = true := by
  unfold isRequestStateKey requestStateKey generateCacheKey CACHE_PREFIX
  simp [String.data_append, cons_isPrefixOf_cons_eq, isPrefixOf_append_cancel,
    isPrefixOf_append_self, nil_isPrefixOf, List.append_assoc]

theorem isRequestStateKey_nonce (clientId corrId : String) :
    isRequestStateKey clientId (nonceKey clientId corrId) = false := by
  unfold isRequestStateKey nonceKey generateCacheKey CACHE_PREFIX
  simp [String.data_append, cons_isPrefixOf_cons_eq, isPrefixOf_append_cancel,
    List.append_assoc]

theorem isRequestStateKey_authority (clientId corrId : String) :
    isRequestStateKey clientId (authorityKey clientId corrId) = false := by
  unfold isRequestStateKey authorityKey generateCacheKey CACHE_PREFIX
  simp [String.data_append, cons_isPrefixOf_cons_eq, isPrefixOf_append_cancel,
    List.append_assoc]

theorem isRequestStateKey_params (clientId corrId : String) :
    isRequestStateKey clientId (requestParamsKey clientId corrId) = false := by
  unfold isRequestStateKey requestParamsKey generateCacheKey CACHE_PREFIX
  simp [String.data_append, cons_isPrefixOf_cons_eq, isPrefixOf_append_cancel,
    List.append_assoc]

theorem requestEntries_keys (clientId : String) (r : RequestRecord)
    (kv : String × String) (h : kv ∈ requestEntries clientId r) :
    kv.1 ∈ requestScopeKeys clientId r.corrId := by
  simp only [requestEntries, List.mem_cons, List.not_mem_nil, or_false] at h
  rcases h with rfl | rfl | rfl | rfl <;> simp [requestScopeKeys]

/-- Temporary key scopes of distinct correlation ids are disjoint. -/
theorem requestScopeKeys_disjoint (clientId a b k : String)
    (ha : k ∈ requestScopeKeys clientId a)
    (hb : k ∈ requestScopeKeys clientId b) : a = b := by
  simp only [requestScopeKeys, requestStateKey, nonceKey, authorityKey,
    requestParamsKey, generateCacheKey, CACHE_PREFIX, List.mem_cons,
    List.not_mem_nil, or_false] at ha hb
  rcases ha with rfl | rfl | rfl | rfl <;> rcases hb with hb | hb | hb | hb <;>
    first
      | (have hd := congrArg String.data hb
         simp [String.data_append] at hd
         exact string_data_inj hd)
      | (have hd := congrArg String.data hb
         simp [String.data_append] at hd)

theorem matchedCorrIds_append (crypto : ICrypto) (clientId : String)
    (s1 s2 : Store) (t : InteractionType) :
    matchedCorrIds crypto clientId (s1 ++ s2) t =
      matchedCorrIds crypto clientId s1 t ++
        matchedCorrIds crypto clientId s2 t := by
  unfold matchedCorrIds
  exact List.filterMap_append ..

theorem matchedCorrIds_of_no_state_key (crypto : ICrypto) (clientId : String)
    (store : Store) (t : InteractionType)
    (h : ∀ kv ∈ store, isRequestStateKey clientId kv.1 = false) :
    matchedCorrIds crypto clientId store t = [] := by
  unfold matchedCorrIds
  apply List.filterMap_eq_nil_iff.mpr
  intro kv hkv
  simp [h kv hkv]

theorem matchedCorrIds_requestEntries (crypto : ICrypto) (clientId : String)
    (r : RequestRecord) (t : InteractionType) (u : String)
    (hu : parseRequestState crypto r.stateVal =
      .ok ⟨⟨r.corrId, some r.interaction⟩, u⟩) :
    matchedCorrIds crypto clientId (requestEntries clientId r) t =
      if r.interaction = t then [r.corrId] else [] := by
  by_cases hit : r.interaction = t <;>
    simp [matchedCorrIds, requestEntries, List.filterMap_cons,
      isRequestStateKey_state, isRequestStateKey_nonce,
      isRequestStateKey_authority, isRequestStateKey_params, hu, hit]

theorem matchedCorrIds_flatten (crypto : ICrypto) (clientId : String)
    (reqs : List RequestRecord) (t : InteractionType)
    (hstate : ∀ r ∈ reqs, ∃ u, parseRequestState crypto r.stateVal =
      .ok ⟨⟨r.corrId, some r.interaction⟩, u⟩) :
    matchedCorrIds crypto clientId
        ((reqs.map (requestEntries clientId)).flatten) t =
      (reqs.filter (fun r => r.interaction = t)).map
        (fun r => r.corrId) := by
  induction reqs with
  | nil => rfl
  | cons r rest ih =>
    obtain ⟨u, hu⟩ := hstate r (by simp)
    simp only [List.map_cons, List.flatten_cons]
    rw [matchedCorrIds_append,
      matchedCorrIds_requestEntries crypto clientId r t u hu,
      ih (fun q hq => hstate q (List.mem_cons_of_mem r hq))]
    by_cases hit : r.interaction = t <;> simp [List.filter_cons, hit]

/-- C3: cleaning by interaction type `t` removes exactly the temporary
entries of requests recorded under `t` — their state entry and the entries
keyed by their correlation id — and leaves every temporary entry recorded
under a different interaction type, and every unrelated entry, unchanged. -/
theorem C3_clean_by_interaction_type (crypto : ICrypto) (clientId : String)
    (reqs : List RequestRecord) (others : Store) (t : InteractionType)
    (hdistinct : ∀ a ∈ reqs, ∀ b ∈ reqs, a.corrId = b.corrId → a = b)
    (hstate : ∀ r ∈ reqs, ∃ u, parseRequestState crypto r.stateVal =
      .ok ⟨⟨r.corrId, some r.interaction⟩, u⟩)
    (hothers_state : ∀ kv ∈ others, isRequestStateKey clientId kv.1 = false)
    (hothers_keys : ∀ kv ∈ others, ∀ r ∈ reqs,
      kv.1 ∉ requestScopeKeys clientId r.corrId) :
    cleanRequestByInteractionType crypto clientId
        ((reqs.map (requestEntries clientId)).flatten ++ others) t =
      ((reqs.filter (fun r => r.interaction ≠ t)).map
        (requestEntries clientId)).flatten ++ others := by
  have hids : matchedCorrIds crypto clientId
      ((reqs.map (requestEntries clientId)).flatten ++ others) t =
      (reqs.filter (fun r => r.interaction = t)).map (fun r => r.corrId) := by
    rw [matchedCorrIds_append,
      matchedCorrIds_flatten crypto clientId reqs t hstate,
      matchedCorrIds_of_no_state_key crypto clientId others t hothers_state,
      List.append_nil]
  have hids_src : ∀ cid ∈ (reqs.filter (fun r => r.interaction = t)).map
      (fun r => r.corrId), ∃ r', r' ∈ reqs ∧ r'.interaction = t ∧
        r'.corrId = cid := by
    intro cid hcid
    obtain ⟨r', hr', rfl⟩ := List.mem_map.mp hcid
    have hm := List.mem_filter.mp hr'
    exact ⟨r', hm.1, by simpa using hm.2, rfl⟩
  unfold cleanRequestByInteractionType
  simp only [hids]
  rw [List.filter_append]
  have hothers_kept : others.filter (fun kv =>
      !(((reqs.filter (fun r => r.interaction = t)).map
        (fun r => r.corrId)).any fun cid =>
          decide (kv.1 ∈ requestScopeKeys clientId cid))) = others := by
    apply List.filter_eq_self.mpr
    intro kv hkv
    cases hany : ((reqs.filter (fun r => r.interaction = t)).map
        (fun r => r.corrId)).any
          (fun cid => decide (kv.1 ∈ requestScopeKeys clientId cid)) with
    | false => rfl
    | true =>
      obtain ⟨cid, hcid, hdec⟩ := List.any_eq_true.mp hany
      obtain ⟨r', hr'mem, _, rfl⟩ := hids_src cid hcid
      exact absurd (of_decide_eq_true hdec) (hothers_keys kv hkv r' hr'mem)
  rw [hothers_kept]
  have hflat : ∀ rs : List RequestRecord, (∀ q ∈ rs, q ∈ reqs) →
      ((rs.map (requestEntries clientId)).flatten).filter (fun kv =>
        !(((reqs.filter (fun r => r.interaction = t)).map
          (fun r => r.corrId)).any fun cid =>
            decide (kv.1 ∈ requestScopeKeys clientId cid))) =
      ((rs.filter (fun r => r.interaction ≠ t)).map
        (requestEntries clientId)).flatten := by
    intro rs hsub
    induction rs with
    | nil => rfl
    | cons q rest ih =>
      have hq : q ∈ reqs := hsub q (by simp)
      have hrest : ∀ p ∈ rest, p ∈ reqs :=
        fun p hp => hsub p (List.mem_cons_of_mem q hp)
      simp only [List.map_cons, List.flatten_cons, List.filter_append]
      rw [ih hrest]
      by_cases hit : q.interaction = t
      · have hqin : q.corrId ∈ (reqs.filter
            (fun r => r.interaction = t)).map (fun r => r.corrId) :=
          List.mem_map.mpr ⟨q, List.mem_filter.mpr ⟨hq, by simpa using hit⟩,
            rfl⟩
        have hdropped : (requestEntries clientId q).filter (fun kv =>
            !(((reqs.filter (fun r => r.interaction = t)).map
              (fun r => r.corrId)).any fun cid =>
                decide (kv.1 ∈ requestScopeKeys clientId cid))) = [] := by
          apply List.filter_eq_nil_iff.mpr
          intro kv hkv
          have hany : ((reqs.filter (fun r => r.interaction = t)).map
              (fun r => r.corrId)).any
                (fun cid => decide (kv.1 ∈ requestScopeKeys clientId cid)) =
              true :=
            List.any_eq_true.mpr ⟨q.corrId, hqin,
              decide_eq_true (requestEntries_keys clientId q kv hkv)⟩
          simp [hany]
        rw [hdropped]
        simp [List.filter_cons, hit]
      · have hkept : (requestEntries clientId q).filter (fun kv =>
            !(((reqs.filter (fun r => r.interaction = t)).map
              (fun r => r.corrId)).any fun cid =>
                decide (kv.1 ∈ requestScopeKeys clientId cid))) =
            requestEntries clientId q := by
          apply List.filter_eq_self.mpr
          intro kv hkv
          cases hany : ((reqs.filter (fun r => r.interaction = t)).map
              (fun r => r.corrId)).any
                (fun cid => decide (kv.1 ∈ requestScopeKeys clientId cid)) with
          | false => rfl
          | true =>
            exfalso
            obtain ⟨cid, hcid, hdec⟩ := List.any_eq_true.mp hany
            obtain ⟨r', hr'mem, hr'it, rfl⟩ := hids_src cid hcid
            have hkey1 := requestEntries_keys clientId q kv hkv
            have hkey2 := of_decide_eq_true hdec
            have heq := requestScopeKeys_disjoint clientId q.corrId
              r'.corrId kv.1 hkey1 hkey2
            have hqr : q = r' := hdistinct q hq r' hr'mem heq
            exact hit (hqr ▸ hr'it)
        rw [hkept]
        simp [List.filter_cons, hit]
  rw [hflat reqs (fun q hq => hq)]

/-- A concrete in-flight redirect request, its state value carrying the
redirect interaction type. -/
def redirectRequest : RequestRecord :=
  { corrId := "guid-redirect"
    interaction := .redirect
    stateVal := mkLibStateMeta ⟨"guid-redirect", some .redirect⟩
    nonceVal := "nonce-redirect"
    authorityVal := "https://login.microsoftonline.com/common/"
    paramsVal := "params-redirect" }

/-- A concurrently open popup request, its state value carrying the popup
interaction type. -/
def popupRequest : RequestRecord :=
  { corrId := "guid-popup"
    interaction := .popup
    stateVal := mkLibStateMeta ⟨"guid-popup", some .popup⟩
    nonceVal := "nonce-popup"
    authorityVal := "https://login.microsoftonline.com/common/"
    paramsVal := "params-popup" }

/-- Witness for C3: cleaning the redirect interaction type on a cache
holding a redirect request, a concurrent popup request and an unrelated
entry removes exactly the redirect request's entries. -/
theorem C3_clean_by_interaction_type_witness :
    cleanRequestByInteractionType stubCrypto "client-id"
        (([redirectRequest, popupRequest].map
          (requestEntries "client-id")).flatten ++
          [(generateCacheKey "client-id" "cacheKey", "cacheValue")])
        InteractionType.redirect =
      (([redirectRequest, popupRequest].filter
          (fun r => r.interaction ≠ InteractionType.redirect)).map
        (requestEntries "client-id")).flatten ++
        [(generateCacheKey "client-id" "cacheKey", "cacheValue")] :=
  C3_clean_by_interaction_type stubCrypto "client-id"
    [redirectRequest, popupRequest]
    [(generateCacheKey "client-id" "cacheKey", "cacheValue")]
    InteractionType.redirect
    (by decide)
    (by
      intro r hr
      simp only [List.mem_cons, List.not_mem_nil, or_false] at hr
      rcases hr with rfl | rfl
      · exact ⟨"", rfl⟩
      · exact ⟨"", rfl⟩)
    (by decide)
    (by decide)

/-- C10: when no temporary request-state entry is recorded under the given
interaction type, `cleanRequestByInteractionType` is a no-op: every
existing temporary entry, including entries not tagged with any
interaction type, is left unchanged. -/
theorem C10_clean_without_match_is_noop (crypto : ICrypto)
    (clientId : String) (store : Store) (t : InteractionType)
    (h : ∀ kv ∈ store, isRequestStateKey clientId kv.1 = true →
      ∀ pr, parseRequestState crypto kv.2 = .ok pr →
        pr.libraryState.interactionType ≠ some t) :
    cleanRequestByInteractionType crypto clientId store t = store := by
  have hids : matchedCorrIds crypto clientId store t = [] := by
    unfold matchedCorrIds
    apply List.filterMap_eq_nil_iff.mpr
    intro kv hkv
    by_cases hsk : isRequestStateKey clientId kv.1
    · rw [if_pos hsk]
      cases hp : parseRequestState crypto kv.2 with
      | error e => rfl
      | ok pr =>
        show (if pr.libraryState.interactionType = some t then
          some pr.libraryState.id else none) = none
        rw [if_neg (h kv hkv hsk pr hp)]
    · rw [if_neg hsk]
  unfold cleanRequestByInteractionType
  simp only [hids]
  apply List.filter_eq_self.mpr
  intro kv _
  rfl

/-- Witness for C10 at the test's configuration: a single unrelated
temporary entry survives a redirect cleanup untouched. -/
theorem C10_clean_without_match_is_noop_witness :
    cleanRequestByInteractionType stubCrypto "client-id"
        [(generateCacheKey "client-id" "cacheKey", "cacheValue")]
        InteractionType.redirect =
      [(generateCacheKey "client-id" "cacheKey", "cacheValue")] :=
  C10_clean_without_match_is_noop stubCrypto "client-id"
    [(generateCacheKey "client-id" "cacheKey", "cacheValue")]
    InteractionType.redirect
    (by
      intro kv hkv hsk pr _
      simp only [List.mem_singleton] at hkv
      subst hkv
      exact absurd hsk (by decide))

end Msal
